import Mathlib

/-!
Shallow embedding of the ledger-consistency core of the bookkeeping
application (Aplikasi Keuangan Lembaga).

Sources embedded here:
* the Journal Engine (`addTransaction`, `addBulkTransactions`,
  `deleteTransaction`, `runDepreciation`) of the data-context module
  (src/unnamed/part_001), together with the backend adapter behaviour of
  `createTransaction`, `createBulkTransactions`, `updateAccount`
  (src/src/services/supabase.ts);
* the depreciation calculator `calculateDepreciationForAsset`
  (src/src/features/Assets.tsx);
* the report calculation of `Reports` (src/src/features/Reports.tsx),
  including the daily depreciation schedule;
* the ledger running-balance reconstruction (src/features/Ledger.tsx).

Conventions of the embedding:
* money amounts are rationals (the source uses JS numbers; all the facts
  proved below are exact-arithmetic facts about the formulas the source
  computes);
* dates are year/month/day triples; `SDate.dayIndex` is the civil day
  number, so that differences and comparisons of `dayIndex` agree with the
  source's `Date.getTime()` differences and comparisons for ISO dates;
* the source issues the per-account balance writes of one transaction as a
  batch of independent requests computed from one fetched snapshot
  (`Promise.all`); the embedding applies these writes sequentially in entry
  order, each write carrying the value computed from the snapshot.  For an
  account hit by several entries of one transaction the last write in entry
  order wins, which resolves the source's race deterministically;
* a failed operation is an `Except.error` carrying the state as left behind
  by the writes already issued before the failure.
-/

namespace AplKeu

/-- Account type, the five Indonesian labels used throughout the source
(`'Aset' | 'Liabilitas' | 'Modal' | 'Pendapatan' | 'Beban'`). -/
inductive AccountType where
  | Aset
  | Liabilitas
  | Modal
  | Pendapatan
  | Beban
deriving DecidableEq, Repr

/-- A calendar date, year/month/day, standing for the source's ISO
`YYYY-MM-DD` strings. -/
structure SDate where
  y : Nat
  m : Nat
  d : Nat
deriving DecidableEq, Repr

/-- Civil day number of a date (days since 1970-01-01, Hinnant's
`days_from_civil`).  For valid ISO dates this is exactly
`Date.parse(s) / 86400000` in the source, so `dayIndex` differences and
comparisons model the source's `getTime()` differences and comparisons. -/
def SDate.dayIndex (dt : SDate) : Int :=
  let yy := if dt.m ≤ 2 then dt.y - 1 else dt.y
  let era := yy / 400
  let yoe := yy - era * 400
  let mp := (dt.m + 9) % 12
  let doy := (153 * mp + 2) / 5 + dt.d - 1
  let doe := yoe * 365 + yoe / 4 - yoe / 100 + doy
  (era * 146097 + doe : Int) - 719468

/-- One journal entry line (`account_code`, `debit`, `credit`). -/
structure JournalEntry where
  account_code : String
  debit : ℚ
  credit : ℚ
deriving DecidableEq, Repr

/-- A posted transaction: client-generated id, date, description and its
journal entries. -/
structure Transaction where
  id : Nat
  date : SDate
  description : String
  entries : List JournalEntry
deriving DecidableEq, Repr

/-- An account row: unique code, display name, type and the stored
balance. -/
structure Account where
  code : String
  name : String
  type : AccountType
  balance : ℚ
deriving DecidableEq, Repr

/-- A fixed-asset row (src/unnamed/part_001 and src/src/features/Assets.tsx). -/
structure Asset where
  id : Nat
  name : String
  category : String
  cost : ℚ
  date : SDate
  life : Option ℚ
  residual : ℚ
  method : Option String
  is_depreciable : Bool
  accumulated_depreciation : ℚ
  last_depreciation_date : Option SDate
deriving DecidableEq, Repr

/-- The whole persisted data state seen by the data context: accounts,
transactions (with nested entries) and assets. -/
structure DataState where
  accounts : List Account
  transactions : List Transaction
  assets : List Asset
deriving DecidableEq, Repr

/-- Signed effect of one entry on an account of the given type:
`debit - credit` for `Aset`/`Beban`, `-(debit - credit)` otherwise.
This is the branch
`if (account.type === 'Aset' || account.type === 'Beban') newBalance += entry.debit - entry.credit else newBalance -= ...`
of `addTransaction` (src/unnamed/part_001 lines 166-170). -/
def entryDelta (t : AccountType) (e : JournalEntry) : ℚ :=
  if t = AccountType.Aset ∨ t = AccountType.Beban then e.debit - e.credit
  else -(e.debit - e.credit)

/-- `api.updateAccount(code, { balance: v })`: overwrite the stored balance
of every row whose code matches (src/src/services/supabase.ts line 97). -/
def setBalance (accs : List Account) (code : String) (v : ℚ) : List Account :=
  accs.map (fun a => if a.code == code then { a with balance := v } else a)

/-- One pass of per-account balance writes over the entries of a
transaction.  Every write's value is computed from the fetched `snapshot`
(`currentAccounts` in the source) — not from the evolving store — and the
writes land in entry order.  `sgn = 1` is the posting direction of
`addTransaction` (lines 162-173); `sgn = -1` is the reversal direction of
`deleteTransaction` (lines 218-229).  A missing account aborts the batch
with the writes issued so far already applied (the source throws while
mapping entries to update promises, after the earlier promises have been
fired). -/
def balancePass (sgn : ℚ) (snapshot : List Account) :
    List Account → List JournalEntry → Except (List Account) (List Account)
  | accs, [] => Except.ok accs
  | accs, e :: rest =>
    match snapshot.find? (fun a => a.code == e.account_code) with
    | none => Except.error accs
    | some b =>
      balancePass sgn snapshot
        (setBalance accs e.account_code (b.balance + sgn * entryDelta b.type e)) rest

/-- Asset account codes excluded from the asset-creation heuristic
(`nonFixedAssetCodes`, src/unnamed/part_001 line 181). -/
def excludedAssetCodes : List String := ["1100", "1200", "1300", "1400", "1600"]

/-- The asset record the heuristic creates for a qualifying debit entry
(src/unnamed/part_001 lines 183-194): seeded from the transaction's
description and date and the entry's debit amount, with
`is_depreciable: true` and `life`/`method` left null. -/
def triggerAsset (tx : Transaction) (acc : Account) (e : JournalEntry) : Asset :=
  { id := 0
    name := tx.description
    category := acc.name
    cost := e.debit
    date := tx.date
    life := none
    residual := 0
    method := none
    is_depreciable := true
    accumulated_depreciation := 0
    last_depreciation_date := none }

/-- Step 3 of `addTransaction` (lines 175-201): every entry that debits an
`Aset` account whose code is not excluded spawns a new asset record.
Lookups use the same fetched snapshot as the balance updates. -/
def triggeredAssets (snapshot : List Account) (tx : Transaction) : List Asset :=
  tx.entries.filterMap (fun e =>
    if 0 < e.debit then
      match snapshot.find? (fun a => a.code == e.account_code) with
      | some a =>
        if a.type = AccountType.Aset ∧ excludedAssetCodes.contains a.code = false then
          some (triggerAsset tx a e)
        else none
      | none => none
    else none)

/-- `addTransaction` (src/unnamed/part_001 lines 156-205).  Step 1 persists
the header and entries (`api.createTransaction`, which rolls the header
back if entry insertion fails; the embedding models the successful
persistence).  Step 2 updates every entry's account balance from the
fetched snapshot; a missing account aborts with the earlier writes applied.
Step 3 runs the asset-creation heuristic.  The caller-supplied `id` stands
for the client-generated unique id. -/
def addTransactionM (s : DataState) (id : Nat) (date : SDate) (desc : String)
    (entries : List JournalEntry) : Except DataState DataState :=
  let newTx : Transaction := { id := id, date := date, description := desc, entries := entries }
  let txs := s.transactions ++ [newTx]
  match balancePass 1 s.accounts s.accounts entries with
  | Except.error accs => Except.error { s with transactions := txs, accounts := accs }
  | Except.ok accs =>
    Except.ok { accounts := accs
                transactions := txs
                assets := s.assets ++ triggeredAssets s.accounts newTx }

/-- `deleteTransaction` (src/unnamed/part_001 lines 214-232): find the
transaction, reverse every entry's balance effect from freshly fetched
account balances, then delete the row (entries cascade). -/
def deleteTransactionM (s : DataState) (id : Nat) : Except DataState DataState :=
  match s.transactions.find? (fun t => t.id == id) with
  | none => Except.error s
  | some tx =>
    match balancePass (-1) s.accounts s.accounts tx.entries with
    | Except.error accs => Except.error { s with accounts := accs }
    | Except.ok accs =>
      Except.ok { s with accounts := accs
                         transactions := s.transactions.filter (fun t => t.id != id) }

/-- One bulk-import payload: header data plus entries
(`BulkTransactionPayload`, src/src/services/supabase.ts). -/
structure BulkPayload where
  id : Nat
  date : SDate
  description : String
  entries : List JournalEntry
deriving DecidableEq, Repr

/-- `addBulkTransactions` (src/unnamed/part_001 lines 207-212):
`api.createBulkTransactions` inserts the transaction headers and entries
and nothing else, then the context refetches all data.  No account balance
is ever written. -/
def addBulkTransactionsM (s : DataState) (payloads : List BulkPayload) : DataState :=
  { s with transactions :=
      s.transactions ++ payloads.map (fun p =>
        { id := p.id, date := p.date, description := p.description, entries := p.entries }) }

/-- The two entries of the aggregated depreciation posting
(src/unnamed/part_001 lines 249-252): debit the fixed Depreciation Expense
account `5400`, credit the fixed Accumulated Depreciation account `1600`,
both for the total. -/
def depEntries (total : ℚ) : List JournalEntry :=
  [ { account_code := "5400", debit := total, credit := 0 }
  , { account_code := "1600", debit := 0, credit := total } ]

/-- Step 3 of `runDepreciation` (lines 259-265): for each previewed item,
set the asset's accumulated depreciation to the item's snapshot value plus
the amount, and stamp the depreciation date. -/
def applyDepUpdates (assets : List Asset) (dd : SDate) :
    List (Asset × ℚ) → List Asset
  | [] => assets
  | item :: rest =>
    applyDepUpdates
      (assets.map (fun a =>
        if a.id == item.1.id then
          { a with accumulated_depreciation := item.1.accumulated_depreciation + item.2
                   last_depreciation_date := some dd }
        else a)) dd rest

/-- `runDepreciation` (src/unnamed/part_001 lines 234-271): on a non-empty
preview list, post one aggregated journal transaction through
`addTransaction`, and only after that posting succeeds update each asset;
if the posting fails the operation aborts there. -/
def runDepreciationM (s : DataState) (dd : SDate) (items : List (Asset × ℚ))
    (txId : Nat) : Except DataState DataState :=
  if items.isEmpty then Except.ok s
  else
    let total := (items.map (fun it => it.2)).sum
    match addTransactionM s txId dd "Penyusutan aset" (depEntries total) with
    | Except.error s₁ => Except.error s₁
    | Except.ok s₁ => Except.ok { s₁ with assets := applyDepUpdates s₁.assets dd items }

/-- Sum of the signed effects on account `code` (of type `ty`) of all
stored entries of the given transactions that reference `code`. -/
def accountEntryTotal (ty : AccountType) (code : String) (txs : List Transaction) : ℚ :=
  (txs.map (fun tx =>
    ((tx.entries.filter (fun e => e.account_code == code)).map (entryDelta ty)).sum)).sum

/-- The balance-equation invariant of the specification: every stored
balance equals the account's initial balance plus the signed effect of all
stored entries referencing it. -/
def balanceEquation (init : String → ℚ) (s : DataState) : Prop :=
  ∀ a ∈ s.accounts, a.balance = init a.code + accountEntryTotal a.type a.code s.transactions

/-- `calculateDepreciationForAsset` (src/src/features/Assets.tsx lines
172-203): monthly straight-line proration from the last depreciation date
(or acquisition date), capped at the remaining depreciable value and
floored at zero. -/
def calculateDepreciationForAsset (a : Asset) (upToDate : SDate) : ℚ :=
  match a.life with
  | none => 0
  | some L =>
    if a.is_depreciable = false ∨ L ≤ 0 then 0
    else
      let base := a.cost - a.residual
      if base ≤ a.accumulated_depreciation then 0
      else
        let startDate := a.last_depreciation_date.getD a.date
        if upToDate.dayIndex ≤ startDate.dayIndex then 0
        else
          let months : Int :=
            ((upToDate.y : Int) - startDate.y) * 12 + ((upToDate.m : Int) - startDate.m)
          if months ≤ 0 then 0
          else
            let monthly := base / (L * 12)
            let amount := monthly * (months : ℚ)
            let remaining := base - a.accumulated_depreciation
            let capped := if remaining < amount then remaining else amount
            if 0 < capped then capped else 0

/-- One row of the report's depreciation schedule. -/
structure DepRow where
  asset : Asset
  openingAccumulated : ℚ
  periodDepreciation : ℚ
  closingAccumulated : ℚ
  bookValue : ℚ
deriving DecidableEq, Repr

/-- The daily-proration depreciation schedule row of the report
(src/src/features/Reports.tsx lines 245-269): `none` models the source's
filtering out of non-eligible assets and of `null` rows. -/
def depreciationScheduleRow (a : Asset) (pstart pend : SDate) : Option DepRow :=
  match a.life with
  | none => none
  | some L =>
    if a.is_depreciable = true ∧ 0 < L ∧ a.method = some "straight-line" then
      let base := a.cost - a.residual
      if base ≤ 0 then none
      else
        let daily := base / (L * 365)
        let acq := a.date.dayIndex
        let opening0 : ℚ :=
          if acq < pstart.dayIndex then
            max 0 (((pstart.dayIndex - acq : Int) : ℚ) * daily)
          else 0
        let opening := min base opening0
        let effStart := if acq < pstart.dayIndex then pstart.dayIndex else acq
        let period : ℚ :=
          if effStart ≤ pend.dayIndex then
            min (base - opening) (max 0 (((pend.dayIndex - effStart + 1 : Int) : ℚ) * daily))
          else 0
        some { asset := a
               openingAccumulated := opening
               periodDepreciation := period
               closingAccumulated := opening + period
               bookValue := a.cost - (opening + period) }
    else none

/-- The full depreciation schedule of the report. -/
def depreciationSchedule (assets : List Asset) (pstart pend : SDate) : List DepRow :=
  assets.filterMap (fun a => depreciationScheduleRow a pstart pend)

/-- Signed effect of an entry as accumulated by the report's
opening/period dictionaries (src/src/features/Reports.tsx lines 198-219):
zero when the entry's account code resolves to no account. -/
def chgOf (accounts : List Account) (e : JournalEntry) : ℚ :=
  match accounts.find? (fun a => a.code == e.account_code) with
  | some a => entryDelta a.type e
  | none => 0

/-- All journal entries of a list of transactions, in order. -/
def allEntries (txs : List Transaction) : List JournalEntry :=
  (txs.map Transaction.entries).flatten

/-- The report's per-code accumulated signed change over a set of
transactions (the `openingBalances` / `periodChanges` dictionaries). -/
def accChange (accounts : List Account) (txs : List Transaction) (code : String) : ℚ :=
  (((allEntries txs).filter (fun e => e.account_code == code)).map (chgOf accounts)).sum

/-- The figures assembled by the report calculation
(src/src/features/Reports.tsx lines 221-243). -/
structure ReportData where
  revenues : List Account
  totalRevenue : ℚ
  expenses : List Account
  totalExpense : ℚ
  netIncome : ℚ
  assets : List Account
  totalAssets : ℚ
  liabilities : List Account
  totalLiabilities : ℚ
  equity : List Account
  totalEquity : ℚ
  totalLiabilitiesAndEquity : ℚ
  isBalanced : Prop

/-- The report calculation of `Reports` (src/src/features/Reports.tsx lines
192-243): partition the history into prior and period transactions, rebuild
opening balances and period changes from zero, assemble income statement
and balance sheet, absorb net income into the equity account `3200`, and
check balance with the `0.01` epsilon. -/
def computeReport (accounts : List Account) (transactions : List Transaction)
    (pstart pend : SDate) : ReportData :=
  let prior := transactions.filter (fun tx => tx.date.dayIndex < pstart.dayIndex)
  let period := transactions.filter
      (fun tx => pstart.dayIndex ≤ tx.date.dayIndex ∧ tx.date.dayIndex ≤ pend.dayIndex)
  let openingOf := fun code => accChange accounts prior code
  let changeOf := fun code => accChange accounts period code
  let revenues := (accounts.filter (fun a => a.type == AccountType.Pendapatan)).map
      (fun a => { a with balance := -(changeOf a.code) })
  let expenses := (accounts.filter (fun a => a.type == AccountType.Beban)).map
      (fun a => { a with balance := changeOf a.code })
  let totalRevenue := (revenues.map Account.balance).sum
  let totalExpense := (expenses.map Account.balance).sum
  let netIncome := totalRevenue - totalExpense
  let finalAssets := (accounts.filter (fun a => a.type == AccountType.Aset)).map
      (fun a => { a with balance := openingOf a.code + changeOf a.code })
  let finalLiabilities := (accounts.filter (fun a => a.type == AccountType.Liabilitas)).map
      (fun a => { a with balance := openingOf a.code + changeOf a.code })
  let finalEquity := (accounts.filter (fun a => a.type == AccountType.Modal)).map
      (fun a => { a with balance := openingOf a.code + changeOf a.code +
                    (if a.code == "3200" then netIncome else 0) })
  let totalAssets := (finalAssets.map Account.balance).sum
  let totalLiabilities := (finalLiabilities.map Account.balance).sum
  let totalEquity := (finalEquity.map Account.balance).sum
  let tle := totalLiabilities + totalEquity
  { revenues := revenues
    totalRevenue := totalRevenue
    expenses := expenses
    totalExpense := totalExpense
    netIncome := netIncome
    assets := finalAssets
    totalAssets := totalAssets
    liabilities := finalLiabilities
    totalLiabilities := totalLiabilities
    equity := finalEquity
    totalEquity := totalEquity
    totalLiabilitiesAndEquity := tle
    isBalanced := |totalAssets - tle| < 1/100 }

/-- Back out an entry's effect from a running balance (the
`balanceBeforeThisTx` computation, src/features/Ledger.tsx lines 47-50). -/
def backOut (ty : AccountType) (e : JournalEntry) (running : ℚ) : ℚ :=
  if ty = AccountType.Aset ∨ ty = AccountType.Beban then running - (e.debit - e.credit)
  else running + (e.debit - e.credit)

/-- The newest-first walk of the ledger view (src/features/Ledger.tsx lines
37-62): starting from the account's stored balance, record for each
transaction its first matching entry together with the running balance,
then back the balance out; rows are returned in chronological order (the
source's `unshift`), and the second component is the running balance left
after the walk, i.e. the reconstructed balance before the earliest
displayed transaction. -/
def ledgerWalk (ty : AccountType) (code : String) :
    ℚ → List Transaction → List (JournalEntry × ℚ) × ℚ
  | running, [] => ([], running)
  | running, tx :: rest =>
    match tx.entries.find? (fun e => e.account_code == code) with
    | none => ledgerWalk ty code running rest
    | some e =>
      let res := ledgerWalk ty code (backOut ty e running) rest
      (res.1 ++ [(e, running)], res.2)

/-- The ledger view for one account (src/features/Ledger.tsx lines 23-65):
keep the transactions touching the account, sort them by date ascending,
and walk them newest-first from the stored balance. -/
def ledgerEntries (acct : Account) (transactions : List Transaction) :
    List (JournalEntry × ℚ) × ℚ :=
  let relevant := transactions.filter
      (fun tx => tx.entries.any (fun e => e.account_code == acct.code))
  let sorted := List.insertionSort (fun t u => t.date.dayIndex ≤ u.date.dayIndex) relevant
  ledgerWalk acct.type acct.code acct.balance sorted.reverse

/-- The signed effect the ledger walk backs out for one transaction: that
of the first entry referencing the account, or zero when none matches. -/
def foundDelta (ty : AccountType) (code : String) (tx : Transaction) : ℚ :=
  match tx.entries.find? (fun e => e.account_code == code) with
  | some e => entryDelta ty e
  | none => 0

/-! Concrete fixtures used by the counterexample and witness theorems.
Account codes and types follow the application's default chart of
accounts (src/src/utils/helpers.ts). -/

/-- The cash account of the default chart. -/
def kasAccount : Account :=
  { code := "1100", name := "Kas", type := AccountType.Aset, balance := 0 }

/-- A revenue account of the default chart. -/
def pendapatanAccount : Account :=
  { code := "4000", name := "Pendapatan Jasa", type := AccountType.Pendapatan, balance := 0 }

/-- The retained-earnings equity account `3200` of the default chart. -/
def modalAccount : Account :=
  { code := "3200", name := "Laba Ditahan", type := AccountType.Modal, balance := 0 }

/-- A fixed-asset account outside the heuristic's exclusion list. -/
def peralatanAccount : Account :=
  { code := "1500", name := "Peralatan", type := AccountType.Aset, balance := 0 }

/-- A sample posting date. -/
def d0 : SDate := ⟨2024, 3, 10⟩

/-- The all-zero initial-balance assignment. -/
def zeroInit : String → ℚ := fun _ => 0

/-- State for the C1 counterexample: one cash account, empty journal. -/
def c1State : DataState := { accounts := [kasAccount], transactions := [], assets := [] }

/-- A balanced entry set referencing the same account twice
(`Σdebit = Σcredit = 100 > 0`, both codes resolve). -/
def c1Entries : List JournalEntry :=
  [ { account_code := "1100", debit := 100, credit := 0 }
  , { account_code := "1100", debit := 0, credit := 100 } ]

/-- State for the C2 failing input: cash and revenue accounts, both with
stored balance `0`, and an empty journal. -/
def c2State : DataState :=
  { accounts := [kasAccount, pendapatanAccount], transactions := [], assets := [] }

/-- One balanced bulk payload: debit cash 100, credit revenue 100. -/
def c2Payload : BulkPayload :=
  { id := 7, date := d0, description := "Import"
    entries := [ { account_code := "1100", debit := 100, credit := 0 }
               , { account_code := "4000", debit := 0, credit := 100 } ] }

/-- Accounts for the C4 failing input. -/
def c4Accounts : List Account := [kasAccount, pendapatanAccount, modalAccount]

/-- One balanced revenue transaction inside the report period. -/
def c4Tx : Transaction :=
  { id := 1, date := d0, description := "Jasa"
    entries := [ { account_code := "1100", debit := 100, credit := 0 }
               , { account_code := "4000", debit := 0, credit := 100 } ] }

/-- Report period start used by the concrete report evaluations. -/
def pStart : SDate := ⟨2024, 1, 1⟩

/-- Report period end used by the concrete report evaluations. -/
def pEnd : SDate := ⟨2024, 12, 31⟩

/-- A depreciable straight-line asset close to full depreciation:
base `1200`, already accumulated `1100`. -/
def c5CexAsset : Asset :=
  { id := 1, name := "Mesin", category := "Peralatan", cost := 1200
    date := ⟨2023, 1, 1⟩, life := some 1, residual := 0
    method := some "straight-line", is_depreciable := true
    accumulated_depreciation := 1100, last_depreciation_date := none }

/-- Three calendar months after the C5 asset's acquisition. -/
def c5CexDate : SDate := ⟨2023, 4, 1⟩

/-- The twelve-month textbook asset of the specification:
cost 12000000, residual 0, life 5 years, no prior depreciation. -/
def asset12M : Asset :=
  { id := 2, name := "Kendaraan", category := "Kendaraan", cost := 12000000
    date := ⟨2023, 1, 15⟩, life := some 5, residual := 0
    method := some "straight-line", is_depreciable := true
    accumulated_depreciation := 0, last_depreciation_date := none }

/-- Exactly twelve months after the acquisition of `asset12M`. -/
def d12M : SDate := ⟨2024, 1, 15⟩

/-- State for the C8 counterexample: a non-excluded asset account and the
equity account, empty journal, no assets. -/
def c8State : DataState :=
  { accounts := [peralatanAccount, modalAccount], transactions := [], assets := [] }

/-- A balanced entry set debiting the non-excluded asset account `1500`. -/
def c8Entries : List JournalEntry :=
  [ { account_code := "1500", debit := 500, credit := 0 }
  , { account_code := "3200", debit := 0, credit := 500 } ]

/-- The transaction the C8 counterexample posts. -/
def c8Tx : Transaction := { id := 2, date := d0, description := "Beli peralatan", entries := c8Entries }

/-- The cash account with stored balance 50 for the C9 counterexample. -/
def c9Account : Account :=
  { code := "1100", name := "Kas", type := AccountType.Aset, balance := 50 }

/-- A transaction carrying two entries for the same account, with zero net
effect on it. -/
def c9Tx : Transaction :=
  { id := 1, date := d0, description := "Mixed"
    entries := [ { account_code := "1100", debit := 100, credit := 0 }
               , { account_code := "1100", debit := 0, credit := 100 } ] }

/-- Last entry of the list referencing the given account code. -/
def lastEntryFor (es : List JournalEntry) (code : String) : Option JournalEntry :=
  (es.filter (fun e => e.account_code == code)).getLast?

/-- The final value of one account after a snapshot-based balance pass:
the value written for the last entry referencing it (computed from the
snapshot), or the account unchanged when no entry references it. -/
def writeFun (sgn : ℚ) (snap : List Account) (es : List JournalEntry) (a : Account) : Account :=
  match lastEntryFor es a.code with
  | none => a
  | some e =>
    match snap.find? (fun b => b.code == e.account_code) with
    | none => a
    | some b => { a with balance := b.balance + sgn * entryDelta b.type e }

/-- Closed form of one snapshot-based balance pass: each account ends at
the value written for the last entry referencing it (computed from the
snapshot), and is untouched when no entry references it. -/
def writeResult (sgn : ℚ) (snap : List Account) (accs : List Account)
    (es : List JournalEntry) : List Account :=
  accs.map (writeFun sgn snap es)

/-- Two account rows that agree on everything except the stored balance. -/
def sameShape (a b : Account) : Prop :=
  a.code = b.code ∧ a.name = b.name ∧ a.type = b.type

/-- A valid two-entry set (debit cash, credit revenue) used by witnesses. -/
def wEntries : List JournalEntry :=
  [ { account_code := "1100", debit := 100, credit := 0 }
  , { account_code := "4000", debit := 0, credit := 100 } ]

/-- The transaction that `wEntries` posts in the witnesses. -/
def wTx : Transaction := { id := 3, date := d0, description := "Setoran", entries := wEntries }

/-- The C4 accounts with arbitrary nonzero stored balances, for the
report-noninterference witness. -/
def c10Accounts : List Account :=
  [ { code := "1100", name := "Kas", type := AccountType.Aset, balance := 999 }
  , { code := "4000", name := "Pendapatan Jasa", type := AccountType.Pendapatan, balance := -5 }
  , { code := "3200", name := "Laba Ditahan", type := AccountType.Modal, balance := 7 } ]

/-- Cash account with stored balance 100 for the ledger witness. -/
def c9wAccount : Account :=
  { code := "1100", name := "Kas", type := AccountType.Aset, balance := 100 }

/-- Two single-entry-per-account transactions whose net cash effect is 50,
so the stored balance 100 is consistent with an initial balance of 50. -/
def c9wTxs : List Transaction :=
  [ { id := 1, date := ⟨2024, 1, 5⟩, description := "Setoran"
      entries := [ { account_code := "1100", debit := 60, credit := 0 }
                 , { account_code := "4000", debit := 0, credit := 60 } ] }
  , { id := 2, date := ⟨2024, 2, 5⟩, description := "Tarik"
      entries := [ { account_code := "1100", debit := 0, credit := 10 }
                 , { account_code := "4000", debit := 10, credit := 0 } ] } ]

/-! ## Theorems -/

/-- C1 (counterexample): a valid entry set — two entries, `Σdebit = Σcredit
= 100 > 0`, every code resolving — that references the cash account twice.
The claim predicts a balance change of `sign * (100 - 100) = 0`; the code
issues both snapshot-based writes and the surviving write leaves the
balance at `-100`. -/
theorem c1_counterexample :
    addTransactionM c1State 1 d0 "Jurnal" c1Entries =
      Except.ok
        { accounts := [{ code := "1100", name := "Kas", type := AccountType.Aset, balance := -100 }]
          transactions := [{ id := 1, date := d0, description := "Jurnal", entries := c1Entries }]
          assets := [] }
    ∧ (c1Entries.map (entryDelta AccountType.Aset)).sum = 0 := by
  constructor
  · norm_num +decide [addTransactionM, balancePass, setBalance, entryDelta,
      triggeredAssets, triggerAsset, excludedAssetCodes, c1State, c1Entries, kasAccount]
  · norm_num +decide [c1Entries, entryDelta]

/-- C2: the balance equation holds on the initial state, and fails after a
balanced bulk create, because `addBulkTransactions` inserts the transaction
and entries but never writes any account balance. -/
theorem c2_bulk_create_breaks_balance_equation :
    balanceEquation zeroInit c2State
    ∧ ¬ balanceEquation zeroInit (addBulkTransactionsM c2State [c2Payload]) := by
  constructor
  · intro a ha
    simp only [c2State, List.mem_cons, List.not_mem_nil, or_false] at ha
    rcases ha with h | h <;> subst h <;>
      norm_num +decide [zeroInit, accountEntryTotal, kasAccount, pendapatanAccount, c2State]
  · intro h
    have hk := h kasAccount (by simp [addBulkTransactionsM, c2State])
    norm_num +decide [zeroInit, accountEntryTotal, addBulkTransactionsM, c2State,
      c2Payload, entryDelta, kasAccount] at hk

/-- C4: a history consisting of one balanced revenue transaction inside the
period, over the default cash/revenue/retained-earnings accounts, for which
the report computes `totalAssets = 100` but `totalLiabilities + totalEquity
= -100`, so `isBalanced` is `false` although every posted transaction is
balanced. -/
theorem c4_balanced_ledger_reports_unbalanced :
    (c4Tx.entries.map JournalEntry.debit).sum = (c4Tx.entries.map JournalEntry.credit).sum
    ∧ ¬ (computeReport c4Accounts [c4Tx] pStart pEnd).isBalanced := by
  constructor
  · norm_num [c4Tx]
  · intro h
    norm_num +decide [computeReport, accChange, allEntries, chgOf, entryDelta,
      c4Accounts, c4Tx, pStart, pEnd, d0, kasAccount, pendapatanAccount, modalAccount,
      SDate.dayIndex] at h

/-- C5 (counterexample): for the asset `c5CexAsset` (base 1200, accumulated
1100, life 1 year) evaluated three months after acquisition, the code caps
the amount at the remaining depreciable value `100`, while the claim's
uncapped formula `monthly * months = (1200 / 12) * 3` gives `300`. -/
theorem c5_counterexample :
    calculateDepreciationForAsset c5CexAsset c5CexDate = 100
    ∧ calculateDepreciationForAsset c5CexAsset c5CexDate ≠
        (c5CexAsset.cost - c5CexAsset.residual) / (1 * 12) * 3 := by
  have h : calculateDepreciationForAsset c5CexAsset c5CexDate = 100 := by
    norm_num +decide [calculateDepreciationForAsset, c5CexAsset, c5CexDate, SDate.dayIndex]
  refine ⟨h, ?_⟩
  rw [h]
  norm_num [c5CexAsset]

/-- C8 (counterexample): posting a balanced transaction that debits the
non-excluded `Aset` account `1500` creates exactly one asset record, seeded
from the transaction's description, date and debit amount — but with
`is_depreciable = true`, where the claim says the record is non-depreciable
by default. -/
theorem c8_counterexample :
    addTransactionM c8State 2 d0 "Beli peralatan" c8Entries =
      Except.ok
        { accounts :=
            [ { code := "1500", name := "Peralatan", type := AccountType.Aset, balance := 500 }
            , { code := "3200", name := "Laba Ditahan", type := AccountType.Modal, balance := 500 } ]
          transactions := [c8Tx]
          assets := [triggerAsset c8Tx peralatanAccount
                      { account_code := "1500", debit := 500, credit := 0 }] }
    ∧ (triggerAsset c8Tx peralatanAccount
        { account_code := "1500", debit := 500, credit := 0 }).is_depreciable = true := by
  constructor
  · norm_num +decide [addTransactionM, balancePass, setBalance, entryDelta,
      triggeredAssets, excludedAssetCodes, c8State, c8Entries, c8Tx,
      peralatanAccount, modalAccount]
  · rfl

/-- C9 (counterexample): the stored balance 50 is consistent with an
initial balance of 50 (the transaction's two entries cancel), so the
balance immediately prior to `c9Tx` is 50; yet the ledger view displays
only the first of the two entries and reconstructs a prior balance of
`-50`. -/
theorem c9_counterexample :
    c9Account.balance = 50 + accountEntryTotal c9Account.type c9Account.code [c9Tx]
    ∧ ledgerEntries c9Account [c9Tx] =
        ([({ account_code := "1100", debit := 100, credit := 0 }, 50)], -50)
    ∧ ((-50 : ℚ) ≠ 50) := by
  refine ⟨?_, ?_, by norm_num⟩
  · norm_num +decide [accountEntryTotal, c9Account, c9Tx, entryDelta]
  · norm_num +decide [ledgerEntries, ledgerWalk, backOut, c9Account, c9Tx,
      List.insertionSort, List.orderedInsert]

/-! ### Infrastructure: the snapshot-based balance pass in closed form -/

theorem getLast?_mem {α : Type _} {l : List α} {a : α} (h : l.getLast? = some a) :
    a ∈ l := by
  induction l with
  | nil => cases h
  | cons x xs ih =>
    cases xs with
    | nil =>
      simp only [List.getLast?_singleton, Option.some.injEq] at h
      simp [h]
    | cons y ys =>
      rw [List.getLast?_cons_cons] at h
      exact List.mem_cons_of_mem x (ih h)

theorem writeFun_nil (sgn : ℚ) (snap : List Account) (a : Account) :
    writeFun sgn snap [] a = a := by
  simp [writeFun, lastEntryFor]

theorem writeResult_nil (sgn : ℚ) (snap accs : List Account) :
    writeResult sgn snap accs [] = accs := by
  unfold writeResult
  rw [List.map_congr_left (fun a _ => writeFun_nil sgn snap a), List.map_id']

theorem writeFun_balance_only (sgn : ℚ) (snap : List Account) (es : List JournalEntry)
    (a : Account) :
    (writeFun sgn snap es a).code = a.code ∧ (writeFun sgn snap es a).name = a.name
      ∧ (writeFun sgn snap es a).type = a.type := by
  unfold writeFun
  cases hle : lastEntryFor es a.code with
  | none => simp
  | some e =>
    cases hf : snap.find? (fun b => b.code == e.account_code) with
    | none => simp [hf]
    | some b => simp [hf]

theorem writeFun_cons_eq (sgn : ℚ) (snap : List Account) (e : JournalEntry)
    (rest : List JournalEntry) (b : Account)
    (hb : snap.find? (fun a => a.code == e.account_code) = some b)
    (hres : ∀ x ∈ rest, (snap.find? (fun a => a.code == x.account_code)).isSome)
    (a : Account) :
    writeFun sgn snap rest
        (if a.code == e.account_code then
          { a with balance := b.balance + sgn * entryDelta b.type e }
        else a)
      = writeFun sgn snap (e :: rest) a := by
  by_cases hc : a.code = e.account_code
  · rw [if_pos (by simp [hc])]
    unfold writeFun lastEntryFor
    rw [List.filter_cons, if_pos (by simp [hc])]
    cases hfr : rest.filter (fun x => x.account_code == a.code) with
    | nil =>
      simp only [show ({ a with balance := b.balance + sgn * entryDelta b.type e } : Account).code
          = a.code from rfl, hfr, hc]
      simp [hb]
    | cons x xs =>
      cases hgl : (x :: xs).getLast? with
      | none => simp at hgl
      | some last =>
        have hlmem : last ∈ rest ∧ (last.account_code == a.code) = true := by
          have : last ∈ rest.filter (fun x => x.account_code == a.code) := by
            rw [hfr]; exact getLast?_mem hgl
          exact List.mem_filter.mp this
        obtain ⟨b', hb'⟩ := Option.isSome_iff_exists.mp (hres last hlmem.1)
        rw [List.getLast?_cons_cons]
        simp only [show ({ a with balance := b.balance + sgn * entryDelta b.type e } : Account).code
            = a.code from rfl, hfr, hgl, hb']
  · have h1 : (a.code == e.account_code) = false := by simp [hc]
    have h2 : (e.account_code == a.code) = false := by
      simp only [beq_eq_false_iff_ne, ne_eq]
      intro hEq
      exact hc hEq.symm
    rw [if_neg (by simp [hc])]
    unfold writeFun lastEntryFor
    rw [List.filter_cons, if_neg (by simp [h2])]

theorem balancePass_eq_writeResult (sgn : ℚ) (snap : List Account) :
    ∀ (es : List JournalEntry) (accs : List Account),
      (∀ e ∈ es, (snap.find? (fun a => a.code == e.account_code)).isSome) →
      balancePass sgn snap accs es = Except.ok (writeResult sgn snap accs es)
  | [], accs, _ => by rw [writeResult_nil]; rfl
  | e :: rest, accs, h => by
    obtain ⟨b, hb⟩ := Option.isSome_iff_exists.mp (h e (List.mem_cons_self e rest))
    have hres : ∀ x ∈ rest, (snap.find? (fun a => a.code == x.account_code)).isSome :=
      fun x hx => h x (List.mem_cons_of_mem e hx)
    rw [show balancePass sgn snap accs (e :: rest)
        = balancePass sgn snap
            (setBalance accs e.account_code (b.balance + sgn * entryDelta b.type e)) rest by
      simp only [balancePass, hb]]
    rw [balancePass_eq_writeResult sgn snap rest _ hres]
    unfold writeResult setBalance
    rw [List.map_map]
    exact congrArg Except.ok
      (List.map_congr_left (fun a _ => writeFun_cons_eq sgn snap e rest b hb hres a))

theorem find?_code_writeResult (sgn : ℚ) (snap accs : List Account)
    (es : List JournalEntry) (c : String) :
    (writeResult sgn snap accs es).find? (fun a => a.code == c)
      = Option.map (writeFun sgn snap es) (accs.find? (fun a => a.code == c)) := by
  have hp : ((fun a => a.code == c) ∘ writeFun sgn snap es) = (fun (a : Account) => a.code == c) := by
    funext a
    simp only [Function.comp_apply, (writeFun_balance_only sgn snap es a).1]
  unfold writeResult
  rw [List.find?_map, hp]

theorem find?_code_self :
    ∀ {accs : List Account}, (accs.map Account.code).Nodup →
      ∀ {a : Account}, a ∈ accs → accs.find? (fun b => b.code == a.code) = some a := by
  intro accs
  induction accs with
  | nil => intro _ a ha; cases ha
  | cons x xs ih =>
    intro hnd a ha
    rw [List.map_cons, List.nodup_cons] at hnd
    rcases List.mem_cons.mp ha with rfl | hmem
    · rw [List.find?_cons_of_pos _ (by simp)]
    · have hne : (x.code == a.code) = false := by
        simp only [beq_eq_false_iff_ne, ne_eq]
        intro hEq
        exact hnd.1 (hEq ▸ List.mem_map_of_mem Account.code hmem)
      rw [List.find?_cons_of_neg _ (by simp [hne])]
      exact ih hnd.2 hmem

theorem writeResult_roundtrip (accs : List Account) (es : List JournalEntry)
    (hnd : (accs.map Account.code).Nodup) :
    writeResult (-1) (writeResult 1 accs accs es) (writeResult 1 accs accs es) es = accs := by
  have key : ∀ a ∈ accs, writeFun (-1) (writeResult 1 accs accs es) es (writeFun 1 accs es a) = a := by
    intro a ha
    obtain ⟨code, name, ty, bal⟩ := a
    cases hle : lastEntryFor es code with
    | none =>
      have h1 : writeFun 1 accs es ⟨code, name, ty, bal⟩ = ⟨code, name, ty, bal⟩ := by
        simp only [writeFun, hle]
      rw [h1]
      simp only [writeFun, hle]
    | some e =>
      have hecode : e.account_code = code := by
        have hm : e ∈ es.filter (fun x => x.account_code == code) := getLast?_mem hle
        have := (List.mem_filter.mp hm).2
        simpa using this
      have hfa : accs.find? (fun b => b.code == e.account_code) = some ⟨code, name, ty, bal⟩ := by
        rw [hecode]
        exact find?_code_self hnd ha
      have h1 : writeFun 1 accs es ⟨code, name, ty, bal⟩
          = ⟨code, name, ty, bal + 1 * entryDelta ty e⟩ := by
        simp only [writeFun, hle, hfa]
      rw [h1]
      simp only [writeFun, hle, find?_code_writeResult, hfa, Option.map_some', h1,
        Account.mk.injEq, true_and]
      ring
  calc writeResult (-1) (writeResult 1 accs accs es) (writeResult 1 accs accs es) es
      = accs.map (fun a => writeFun (-1) (writeResult 1 accs accs es) es (writeFun 1 accs es a)) := by
        conv_lhs => rw [writeResult, writeResult, List.map_map]
        rfl
    _ = accs.map (fun a => a) := List.map_congr_left key
    _ = accs := List.map_id' accs

theorem writeResult_of_unique (accs : List Account) (es : List JournalEntry)
    (hnd : (accs.map Account.code).Nodup)
    (hone : ∀ a ∈ accs, (es.filter (fun e => e.account_code == a.code)).length ≤ 1) :
    writeResult 1 accs accs es = accs.map (fun a =>
      { a with balance := a.balance +
          ((es.filter (fun e => e.account_code == a.code)).map (entryDelta a.type)).sum }) := by
  unfold writeResult
  apply List.map_congr_left
  intro a ha
  obtain ⟨code, name, ty, bal⟩ := a
  cases hfl : es.filter (fun e => e.account_code == code) with
  | nil =>
    simp only [writeFun, lastEntryFor, hfl, List.getLast?_nil, List.map_nil,
      List.sum_nil, add_zero]
  | cons e tail =>
    have htail : tail = [] := by
      have := hone ⟨code, name, ty, bal⟩ ha
      rw [hfl] at this
      simpa using List.length_eq_zero.mp (by simpa using this)
    subst htail
    have hecode : e.account_code = code := by
      have hm : e ∈ es.filter (fun x => x.account_code == code) := by
        rw [hfl]; exact List.mem_singleton_self e
      have := (List.mem_filter.mp hm).2
      simpa using this
    have hfa : accs.find? (fun b => b.code == e.account_code) = some ⟨code, name, ty, bal⟩ := by
      rw [hecode]
      exact find?_code_self hnd ha
    simp only [writeFun, lastEntryFor, hfl, List.getLast?_singleton, List.map_cons,
      List.map_nil, List.sum_cons, List.sum_nil, add_zero, hfa, one_mul]

theorem addTransactionM_ok (s : DataState) (id : Nat) (dd : SDate) (ds : String)
    (es : List JournalEntry)
    (hres : ∀ e ∈ es, (s.accounts.find? (fun a => a.code == e.account_code)).isSome) :
    addTransactionM s id dd ds es = Except.ok
      { accounts := writeResult 1 s.accounts s.accounts es
        transactions := s.transactions ++ [{ id := id, date := dd, description := ds, entries := es }]
        assets := s.assets ++ triggeredAssets s.accounts
            { id := id, date := dd, description := ds, entries := es } } := by
  simp only [addTransactionM]
  rw [balancePass_eq_writeResult 1 s.accounts es s.accounts hres]

theorem deleteTransactionM_ok (s : DataState) (id : Nat) (tx : Transaction)
    (hfind : s.transactions.find? (fun t => t.id == id) = some tx)
    (hres : ∀ e ∈ tx.entries, (s.accounts.find? (fun a => a.code == e.account_code)).isSome) :
    deleteTransactionM s id = Except.ok
      { s with accounts := writeResult (-1) s.accounts s.accounts tx.entries
               transactions := s.transactions.filter (fun t => t.id != id) } := by
  simp only [deleteTransactionM, hfind]
  rw [balancePass_eq_writeResult (-1) s.accounts tx.entries s.accounts hres]

/-- C1 (amended): for a valid entry set in which additionally every account
is referenced by at most one entry (and account codes are unique),
`addTransaction` succeeds and rewrites the stored balances to exactly
`old + sign(type)*(debit-credit)` summed over the account's entries —
in particular every unreferenced account is unchanged.  (Without the
at-most-one-entry condition the snapshot-based writes overwrite each other;
see the counterexample.) -/
theorem c1_per_account_effect (s : DataState) (id : Nat) (dd : SDate) (ds : String)
    (es : List JournalEntry)
    (hnd : (s.accounts.map Account.code).Nodup)
    (hres : ∀ e ∈ es, (s.accounts.find? (fun a => a.code == e.account_code)).isSome)
    (hone : ∀ a ∈ s.accounts, (es.filter (fun e => e.account_code == a.code)).length ≤ 1)
    (hlen : 2 ≤ es.length)
    (hsum : (es.map JournalEntry.debit).sum = (es.map JournalEntry.credit).sum)
    (hpos : 0 < (es.map JournalEntry.debit).sum) :
    addTransactionM s id dd ds es = Except.ok
      { accounts := s.accounts.map (fun a =>
          { a with balance := a.balance +
              ((es.filter (fun e => e.account_code == a.code)).map (entryDelta a.type)).sum })
        transactions := s.transactions ++ [{ id := id, date := dd, description := ds, entries := es }]
        assets := s.assets ++ triggeredAssets s.accounts
            { id := id, date := dd, description := ds, entries := es } } := by
  rw [addTransactionM_ok s id dd ds es hres, writeResult_of_unique s.accounts es hnd hone]

/-- Witness for C1: the amended theorem applied to the concrete two-account
state and the valid cash/revenue entry set. -/
theorem c1_per_account_effect_witness :
    addTransactionM c2State 3 d0 "Setoran" wEntries = Except.ok
      { accounts := c2State.accounts.map (fun a =>
          { a with balance := a.balance +
              ((wEntries.filter (fun e => e.account_code == a.code)).map (entryDelta a.type)).sum })
        transactions := c2State.transactions ++ [{ id := 3, date := d0, description := "Setoran", entries := wEntries }]
        assets := c2State.assets ++ triggeredAssets c2State.accounts
            { id := 3, date := d0, description := "Setoran", entries := wEntries } } :=
  c1_per_account_effect c2State 3 d0 "Setoran" wEntries (by decide) (by decide) (by decide)
    (by decide) (by norm_num [wEntries]) (by norm_num [wEntries])

/-- C3: creating a valid transaction (unique account codes, every entry
resolving, fresh transaction id) and immediately deleting it restores every
account's stored balance — in fact the whole stored account list — to its
pre-creation value. -/
theorem c3_create_delete_roundtrip (s : DataState) (id : Nat) (dd : SDate) (ds : String)
    (es : List JournalEntry)
    (hnd : (s.accounts.map Account.code).Nodup)
    (hres : ∀ e ∈ es, (s.accounts.find? (fun a => a.code == e.account_code)).isSome)
    (hfresh : ∀ t ∈ s.transactions, t.id ≠ id)
    (hlen : 2 ≤ es.length)
    (hsum : (es.map JournalEntry.debit).sum = (es.map JournalEntry.credit).sum)
    (hpos : 0 < (es.map JournalEntry.debit).sum) :
    ∃ s₁ s₂, addTransactionM s id dd ds es = Except.ok s₁
      ∧ deleteTransactionM s₁ id = Except.ok s₂
      ∧ s₂.accounts = s.accounts := by
  have hfind : (s.transactions ++
      [({ id := id, date := dd, description := ds, entries := es } : Transaction)]).find?
        (fun t => t.id == id)
      = some { id := id, date := dd, description := ds, entries := es } := by
    rw [List.find?_append]
    have h1 : s.transactions.find? (fun t => t.id == id) = none := by
      rw [List.find?_eq_none]
      intro t ht
      simp [hfresh t ht]
    rw [h1]
    simp
  have hres1 : ∀ e ∈ es,
      ((writeResult 1 s.accounts s.accounts es).find?
        (fun a => a.code == e.account_code)).isSome := by
    intro e he
    have hx := hres e he
    rw [find?_code_writeResult]
    cases hy : s.accounts.find? (fun a => a.code == e.account_code) with
    | none => rw [hy] at hx; cases hx
    | some b => rfl
  refine ⟨_, _, addTransactionM_ok s id dd ds es hres,
    deleteTransactionM_ok _ id { id := id, date := dd, description := ds, entries := es }
      hfind hres1, ?_⟩
  simpa using writeResult_roundtrip s.accounts es hnd

/-- Witness for C3: the round-trip theorem applied to the concrete
two-account state and the valid cash/revenue entry set. -/
theorem c3_create_delete_roundtrip_witness :
    ∃ s₁ s₂, addTransactionM c2State 3 d0 "Setoran" wEntries = Except.ok s₁
      ∧ deleteTransactionM s₁ 3 = Except.ok s₂
      ∧ s₂.accounts = c2State.accounts :=
  c3_create_delete_roundtrip c2State 3 d0 "Setoran" wEntries (by decide) (by decide)
    (by decide) (by decide) (by norm_num [wEntries]) (by norm_num [wEntries])

theorem addTransactionM_error_assets (s : DataState) (id : Nat) (dd : SDate) (ds : String)
    (es : List JournalEntry) (s₁ : DataState)
    (h : addTransactionM s id dd ds es = Except.error s₁) :
    s₁.assets = s.assets := by
  simp only [addTransactionM] at h
  cases hbp : balancePass 1 s.accounts s.accounts es with
  | error accs =>
    simp only [hbp, Except.error.injEq] at h
    rw [← h]
  | ok accs =>
    rw [hbp] at h
    exact Except.noConfusion h

theorem addTransactionM_ok_fields (s : DataState) (id : Nat) (dd : SDate) (ds : String)
    (es : List JournalEntry) (s' : DataState)
    (h : addTransactionM s id dd ds es = Except.ok s') :
    s'.transactions = s.transactions ++
        [{ id := id, date := dd, description := ds, entries := es }]
      ∧ s'.assets = s.assets ++ triggeredAssets s.accounts
        { id := id, date := dd, description := ds, entries := es } := by
  simp only [addTransactionM] at h
  cases hbp : balancePass 1 s.accounts s.accounts es with
  | error accs =>
    rw [hbp] at h
    exact Except.noConfusion h
  | ok accs =>
    simp only [hbp, Except.ok.injEq] at h
    rw [← h]
    exact ⟨rfl, rfl⟩

/-- C7: in `runDepreciation` on a non-empty item list, the aggregated
two-entry posting (debit `5400`, credit `1600`, both for the total) goes
through `addTransaction` first; if that posting fails the whole run fails
with every asset record untouched, and if it succeeds the posted aggregate
transaction is part of the resulting state.  (The temporal ordering of the
source — step 2 is awaited before step 3 starts — appears here as the
failure case leaving the assets unchanged.) -/
theorem c7_posting_before_asset_updates (s : DataState) (dd : SDate)
    (items : List (Asset × ℚ)) (txId : Nat) (hne : items ≠ []) :
    (∀ s₁, runDepreciationM s dd items txId = Except.error s₁ → s₁.assets = s.assets)
    ∧ (∀ s₂, runDepreciationM s dd items txId = Except.ok s₂ →
        ({ id := txId, date := dd, description := "Penyusutan aset"
           entries := depEntries ((items.map (fun it => it.2)).sum) } : Transaction)
          ∈ s₂.transactions) := by
  cases items with
  | nil => exact absurd rfl hne
  | cons it rest =>
    constructor
    · intro s₁ h
      simp only [runDepreciationM, List.isEmpty_cons, Bool.false_eq_true, if_false] at h
      cases hadd : addTransactionM s txId dd "Penyusutan aset"
          (depEntries (((it :: rest).map (fun x => x.2)).sum)) with
      | error sx =>
        simp only [hadd, Except.error.injEq] at h
        rw [← h]
        exact addTransactionM_error_assets _ _ _ _ _ _ hadd
      | ok sx =>
        rw [hadd] at h
        exact Except.noConfusion h
    · intro s₂ h
      simp only [runDepreciationM, List.isEmpty_cons, Bool.false_eq_true, if_false] at h
      cases hadd : addTransactionM s txId dd "Penyusutan aset"
          (depEntries (((it :: rest).map (fun x => x.2)).sum)) with
      | error sx =>
        rw [hadd] at h
        exact Except.noConfusion h
      | ok sx =>
        simp only [hadd, Except.ok.injEq] at h
        rw [← h]
        have hfields := addTransactionM_ok_fields _ _ _ _ _ _ hadd
        show _ ∈ sx.transactions
        rw [hfields.1]
        exact List.mem_append_right _ (List.mem_singleton_self _)

/-- Witness for C7: on the two-account state (which has no `5400`/`1600`
accounts) the posting fails, the run returns the error state, and — by the
theorem — that state's asset list equals the initial one. -/
theorem c7_posting_before_asset_updates_witness :
    runDepreciationM c2State d0 [(c5CexAsset, 100)] 9 =
        Except.error
          { accounts := c2State.accounts
            transactions := [{ id := 9, date := d0, description := "Penyusutan aset"
                               entries := depEntries 100 }]
            assets := [] }
    ∧ DataState.assets
        { accounts := c2State.accounts
          transactions := [{ id := 9, date := d0, description := "Penyusutan aset"
                             entries := depEntries 100 }]
          assets := [] } = c2State.assets := by
  have herr : runDepreciationM c2State d0 [(c5CexAsset, 100)] 9 =
      Except.error
        { accounts := c2State.accounts
          transactions := [{ id := 9, date := d0, description := "Penyusutan aset"
                             entries := depEntries 100 }]
          assets := [] } := by
    norm_num +decide [runDepreciationM, addTransactionM, balancePass, depEntries,
      c2State, kasAccount, pendapatanAccount]
  exact ⟨herr,
    (c7_posting_before_asset_updates c2State d0 [(c5CexAsset, 100)] 9 (by decide)).1 _ herr⟩

/-- C8 (amended): every entry that debits an `Aset` account outside the
exclusion set makes `addTransaction` create the asset record
`triggerAsset` — seeded from the transaction's description, date and the
entry's debit amount — and that record is depreciable by default
(`is_depreciable = true`, with `life` and `method` left null), not
non-depreciable as the claim states. -/
theorem c8_asset_trigger (s : DataState) (id : Nat) (dd : SDate) (ds : String)
    (es : List JournalEntry) (s' : DataState) (e : JournalEntry) (acc : Account)
    (hok : addTransactionM s id dd ds es = Except.ok s')
    (he : e ∈ es) (hdeb : 0 < e.debit)
    (hacc : s.accounts.find? (fun a => a.code == e.account_code) = some acc)
    (htype : acc.type = AccountType.Aset)
    (hexc : excludedAssetCodes.contains acc.code = false) :
    triggerAsset { id := id, date := dd, description := ds, entries := es } acc e ∈ s'.assets
    ∧ (triggerAsset { id := id, date := dd, description := ds, entries := es } acc e).is_depreciable
        = true := by
  refine ⟨?_, rfl⟩
  rw [(addTransactionM_ok_fields s id dd ds es s' hok).2]
  apply List.mem_append_right
  refine List.mem_filterMap.mpr ⟨e, he, ?_⟩
  simp only [hdeb, if_true, hacc, htype, hexc]
  simp

/-- Witness for C8: the trigger theorem applied to the concrete posting of
`c8Entries` on `c8State`. -/
theorem c8_asset_trigger_witness :
    triggerAsset c8Tx peralatanAccount
        { account_code := "1500", debit := 500, credit := 0 }
      ∈ (DataState.mk
          [ { code := "1500", name := "Peralatan", type := AccountType.Aset, balance := 500 }
          , { code := "3200", name := "Laba Ditahan", type := AccountType.Modal, balance := 500 } ]
          [c8Tx]
          [triggerAsset c8Tx peralatanAccount
            { account_code := "1500", debit := 500, credit := 0 }]).assets :=
  (c8_asset_trigger c8State 2 d0 "Beli peralatan" c8Entries _
      { account_code := "1500", debit := 500, credit := 0 } peralatanAccount
      (by norm_num +decide [addTransactionM, balancePass, setBalance, entryDelta,
        triggeredAssets, excludedAssetCodes, c8State, c8Entries, c8Tx,
        peralatanAccount, modalAccount])
      (by norm_num [c8Entries]) (by norm_num) (by decide) (by decide) (by decide)).1

/-! ### Infrastructure: the ledger walk -/

theorem backOut_eq (ty : AccountType) (e : JournalEntry) (r : ℚ) :
    backOut ty e r = r - entryDelta ty e := by
  unfold backOut entryDelta
  split <;> ring

theorem ledgerWalk_final (ty : AccountType) (code : String) :
    ∀ (txs : List Transaction) (r : ℚ),
      (ledgerWalk ty code r txs).2 = r - (txs.map (foundDelta ty code)).sum := by
  intro txs
  induction txs with
  | nil => intro r; simp [ledgerWalk]
  | cons tx rest ih =>
    intro r
    cases hf : tx.entries.find? (fun e => e.account_code == code) with
    | none =>
      simp only [ledgerWalk, hf, List.map_cons, List.sum_cons, foundDelta]
      rw [ih r]
      ring
    | some e =>
      simp only [ledgerWalk, hf, List.map_cons, List.sum_cons, foundDelta]
      rw [ih (backOut ty e r), backOut_eq]
      ring

theorem ledgerWalk_rows_getLast (ty : AccountType) (code : String) :
    ∀ (txs : List Transaction) (r : ℚ) (row : JournalEntry × ℚ),
      ((ledgerWalk ty code r txs).1).getLast? = some row → row.2 = r := by
  intro txs
  induction txs with
  | nil => intro r row h; simp [ledgerWalk] at h
  | cons tx rest ih =>
    intro r row h
    cases hf : tx.entries.find? (fun e => e.account_code == code) with
    | none =>
      simp only [ledgerWalk, hf] at h
      exact ih r row h
    | some e =>
      simp only [ledgerWalk, hf, List.getLast?_concat, Option.some.injEq] at h
      rw [← h]

theorem ledgerWalk_rows_nil (ty : AccountType) (code : String) :
    ∀ (txs : List Transaction) (r : ℚ),
      (ledgerWalk ty code r txs).1 = [] → (ledgerWalk ty code r txs).2 = r := by
  intro txs
  induction txs with
  | nil => intro r _; simp [ledgerWalk]
  | cons tx rest ih =>
    intro r h
    cases hf : tx.entries.find? (fun e => e.account_code == code) with
    | none =>
      simp only [ledgerWalk, hf] at h ⊢
      exact ih r h
    | some e =>
      simp only [ledgerWalk, hf] at h
      exact absurd h (by simp)

theorem ledgerWalk_chain (ty : AccountType) (code : String) :
    ∀ (txs : List Transaction) (r : ℚ),
      List.Chain' (fun p q => p.2 = backOut ty q.1 q.2) (ledgerWalk ty code r txs).1 := by
  intro txs
  induction txs with
  | nil => intro r; simp [ledgerWalk]
  | cons tx rest ih =>
    intro r
    cases hf : tx.entries.find? (fun e => e.account_code == code) with
    | none =>
      simp only [ledgerWalk, hf]
      exact ih r
    | some e =>
      simp only [ledgerWalk, hf]
      rw [List.chain'_append]
      refine ⟨ih (backOut ty e r), List.chain'_singleton _, ?_⟩
      intro x hx y hy
      simp only [List.head?_cons, Option.mem_def, Option.some.injEq] at hy
      rw [← hy]
      exact ledgerWalk_rows_getLast ty code rest (backOut ty e r) x hx

theorem ledgerWalk_head (ty : AccountType) (code : String) :
    ∀ (txs : List Transaction) (r : ℚ) (row : JournalEntry × ℚ),
      ((ledgerWalk ty code r txs).1).head? = some row →
        backOut ty row.1 row.2 = (ledgerWalk ty code r txs).2 := by
  intro txs
  induction txs with
  | nil => intro r row h; simp [ledgerWalk] at h
  | cons tx rest ih =>
    intro r row h
    cases hf : tx.entries.find? (fun e => e.account_code == code) with
    | none =>
      simp only [ledgerWalk, hf] at h ⊢
      exact ih r row h
    | some e =>
      simp only [ledgerWalk, hf] at h ⊢
      cases hrows : (ledgerWalk ty code (backOut ty e r) rest).1 with
      | nil =>
        rw [hrows] at h
        simp only [List.nil_append, List.head?_cons, Option.some.injEq] at h
        rw [← h]
        exact (ledgerWalk_rows_nil ty code rest (backOut ty e r) hrows).symm
      | cons p ps =>
        rw [hrows] at h
        simp only [List.cons_append, List.head?_cons, Option.some.injEq] at h
        have := ih (backOut ty e r) row (by rw [hrows, ← h]; rfl)
        exact this

theorem find?_eq_head_filter {α : Type _} (p : α → Bool) :
    ∀ (l : List α), l.find? p = (l.filter p).head? := by
  intro l
  induction l with
  | nil => rfl
  | cons x xs ih =>
    rw [List.filter_cons]
    cases hx : p x with
    | true =>
      rw [List.find?_cons_of_pos _ hx]
      simp
    | false =>
      rw [List.find?_cons_of_neg _ (by simp [hx])]
      simpa using ih

theorem sum_map_filter_eq (g : Transaction → ℚ) (p : Transaction → Bool) :
    ∀ (l : List Transaction), (∀ x ∈ l, p x = false → g x = 0) →
      ((l.filter p).map g).sum = (l.map g).sum := by
  intro l
  induction l with
  | nil => intro _; rfl
  | cons x xs ih =>
    intro h0
    have hxs := fun y hy => h0 y (List.mem_cons_of_mem _ hy)
    rw [List.filter_cons]
    cases hx : p x with
    | true => simp [ih hxs]
    | false => simp [ih hxs, h0 x (List.mem_cons_self x xs) hx]

/-- C9 (amended): for an account whose transactions each carry at most one
entry for it, and whose stored balance satisfies the balance equation with
initial balance `init`, the ledger view anchors the newest displayed row at
the stored balance, obtains each earlier row by backing out the effect of
the row after it, and backing the earliest row's own effect out yields
exactly `init` — the balance immediately prior to that transaction.
(Without the at-most-one-entry condition the view displays only the first
matching entry per transaction and the reconstruction misses the others;
see the counterexample.) -/
theorem c9_ledger_reconstruction (acct : Account) (txs : List Transaction) (init : ℚ)
    (hone : ∀ tx ∈ txs, (tx.entries.filter (fun e => e.account_code == acct.code)).length ≤ 1)
    (hinv : acct.balance = init + accountEntryTotal acct.type acct.code txs) :
    (∀ row, ((ledgerEntries acct txs).1).getLast? = some row → row.2 = acct.balance)
    ∧ List.Chain' (fun p q => p.2 = backOut acct.type q.1 q.2) (ledgerEntries acct txs).1
    ∧ (∀ row, ((ledgerEntries acct txs).1).head? = some row →
        backOut acct.type row.1 row.2 = (ledgerEntries acct txs).2)
    ∧ (ledgerEntries acct txs).2 = init := by
  refine ⟨fun row h => ledgerWalk_rows_getLast acct.type acct.code _ acct.balance row h,
    ledgerWalk_chain acct.type acct.code _ acct.balance,
    fun row h => ledgerWalk_head acct.type acct.code _ acct.balance row h, ?_⟩
  show (ledgerWalk acct.type acct.code acct.balance
      ((List.insertionSort (fun t u => t.date.dayIndex ≤ u.date.dayIndex)
        (txs.filter (fun tx => tx.entries.any (fun e => e.account_code == acct.code)))).reverse)).2
    = init
  rw [ledgerWalk_final]
  have hperm : ((List.insertionSort (fun t u => t.date.dayIndex ≤ u.date.dayIndex)
      (txs.filter (fun tx => tx.entries.any (fun e => e.account_code == acct.code)))).reverse).Perm
      (txs.filter (fun tx => tx.entries.any (fun e => e.account_code == acct.code))) :=
    (List.reverse_perm _).trans (List.perm_insertionSort _ _)
  rw [(hperm.map (foundDelta acct.type acct.code)).sum_eq]
  have hcongr : ∀ tx ∈ txs.filter (fun tx => tx.entries.any (fun e => e.account_code == acct.code)),
      foundDelta acct.type acct.code tx
      = ((tx.entries.filter (fun e => e.account_code == acct.code)).map
          (entryDelta acct.type)).sum := by
    intro tx htx
    obtain ⟨htxs, hany⟩ := List.mem_filter.mp htx
    obtain ⟨e0, he0, hpe⟩ := List.any_eq_true.mp hany
    have hne : tx.entries.filter (fun e => e.account_code == acct.code) ≠ [] := by
      intro hnil
      have := (List.filter_eq_nil_iff.mp hnil) e0 he0
      exact this hpe
    cases hfl : tx.entries.filter (fun e => e.account_code == acct.code) with
    | nil => exact absurd hfl hne
    | cons e tail =>
      have htail : tail = [] := by
        have := hone tx htxs
        rw [hfl] at this
        simpa using List.length_eq_zero.mp (by simpa using this)
      subst htail
      unfold foundDelta
      rw [find?_eq_head_filter, hfl]
      simp
  rw [List.map_congr_left hcongr]
  rw [sum_map_filter_eq (fun tx => ((tx.entries.filter (fun e => e.account_code == acct.code)).map
        (entryDelta acct.type)).sum) _ txs (fun tx _ hfalse => by
    have hnil : tx.entries.filter (fun e => e.account_code == acct.code) = [] := by
      rw [List.filter_eq_nil_iff]
      intro e he hpe
      have : tx.entries.any (fun e => e.account_code == acct.code) = true :=
        List.any_eq_true.mpr ⟨e, he, hpe⟩
      rw [hfalse] at this
      cases this
    simp [hnil])]
  rw [hinv]
  unfold accountEntryTotal
  ring

/-- Witness for C9: the reconstruction theorem applied to the concrete
cash account (balance 100, two single-entry transactions of net effect 50)
recovers the initial balance 50. -/
theorem c9_ledger_reconstruction_witness :
    (ledgerEntries c9wAccount c9wTxs).2 = 50 :=
  (c9_ledger_reconstruction c9wAccount c9wTxs 50 (by decide)
    (by norm_num +decide [accountEntryTotal, c9wAccount, c9wTxs, entryDelta])).2.2.2


/-! ### The depreciation calculator and schedule -/

/-- C5 (amended): for a depreciable straight-line asset with positive life,
the monthly-proration amount equals `monthly * months` capped at the
remaining depreciable value `depreciableBase - accumulated_depreciation`
and floored at zero, where `months` is the calendar year/month difference
from the last depreciation date (or the acquisition date when null) to the
as-of date; the amount is zero when the as-of date is not later than the
start date or `months ≤ 0`.  The claim's uncapped `monthly * months` fails
when the cap binds; see the counterexample. -/
theorem c5_monthly_formula (a : Asset) (L : ℚ) (d : SDate)
    (hdep : a.is_depreciable = true) (hlife : a.life = some L) (hL : 0 < L)
    (hm : a.method = some "straight-line") :
    calculateDepreciationForAsset a d =
      if d.dayIndex ≤ (a.last_depreciation_date.getD a.date).dayIndex
          ∨ (((d.y : Int) - ((a.last_depreciation_date.getD a.date).y : Int)) * 12 +
              ((d.m : Int) - ((a.last_depreciation_date.getD a.date).m : Int))) ≤ 0 then 0
      else
        max 0 (min ((a.cost - a.residual) / (L * 12) *
              (((((d.y : Int) - ((a.last_depreciation_date.getD a.date).y : Int)) * 12 +
                ((d.m : Int) - ((a.last_depreciation_date.getD a.date).m : Int)) : Int)) : ℚ))
            ((a.cost - a.residual) - a.accumulated_depreciation)) := by
  unfold calculateDepreciationForAsset
  simp only [hlife]
  rw [if_neg (by simp only [hdep, Bool.true_eq_false, false_or]; exact not_le.mpr hL)]
  set st := a.last_depreciation_date.getD a.date with hst
  set mns : Int := ((d.y : Int) - (st.y : Int)) * 12 + ((d.m : Int) - (st.m : Int)) with hmns
  set amt : ℚ := (a.cost - a.residual) / (L * 12) * (mns : ℚ) with hamt
  set rem : ℚ := (a.cost - a.residual) - a.accumulated_depreciation with hrem
  by_cases hged : d.dayIndex ≤ st.dayIndex
  · rw [if_pos (Or.inl hged)]
    by_cases hba : a.cost - a.residual ≤ a.accumulated_depreciation
    · rw [if_pos hba]
    · rw [if_neg hba, if_pos hged]
  · by_cases hmo : mns ≤ 0
    · rw [if_pos (Or.inr hmo)]
      by_cases hba : a.cost - a.residual ≤ a.accumulated_depreciation
      · rw [if_pos hba]
      · rw [if_neg hba, if_neg hged, if_pos hmo]
    · rw [if_neg (not_or.mpr ⟨hged, hmo⟩)]
      by_cases hba : a.cost - a.residual ≤ a.accumulated_depreciation
      · rw [if_pos hba]
        have h1 : min amt rem ≤ 0 := le_trans (min_le_right _ _) (by rw [hrem]; linarith)
        rw [max_eq_left h1]
      · rw [if_neg hba, if_neg hged, if_neg hmo]
        have hcap : (if rem < amt then rem else amt) = min amt rem := by
          rcases lt_or_le rem amt with h | h
          · rw [if_pos h, min_eq_right (le_of_lt h)]
          · rw [if_neg (not_lt.mpr h), min_eq_left h]
        rw [hcap]
        rcases lt_or_le 0 (min amt rem) with h | h
        · rw [if_pos h, max_eq_right (le_of_lt h)]
        · rw [if_neg (not_lt.mpr h), max_eq_left h]

/-- Witness for C5: the specification's textbook instance — cost 12000000,
residual 0, life 5 years, no prior depreciation, evaluated exactly twelve
months after acquisition — yields 2400000. -/
theorem c5_monthly_formula_witness :
    calculateDepreciationForAsset asset12M d12M = 2400000 := by
  have h := c5_monthly_formula asset12M 5 d12M rfl rfl (by norm_num) rfl
  rw [h]
  norm_num +decide [asset12M, d12M, SDate.dayIndex]

theorem calc_dep_nonneg (a : Asset) (d : SDate) :
    0 ≤ calculateDepreciationForAsset a d := by
  unfold calculateDepreciationForAsset
  cases hl : a.life with
  | none => simp
  | some L =>
    simp only []
    split_ifs <;> linarith

theorem calc_dep_le_remaining (a : Asset) (d : SDate)
    (hba : a.accumulated_depreciation ≤ a.cost - a.residual) :
    calculateDepreciationForAsset a d
      ≤ (a.cost - a.residual) - a.accumulated_depreciation := by
  unfold calculateDepreciationForAsset
  cases hl : a.life with
  | none =>
    simpa using sub_nonneg.mpr hba
  | some L =>
    simp only []
    split_ifs <;> linarith

theorem depRow_bounds (a : Asset) (ps pe : SDate) (r : DepRow)
    (h : depreciationScheduleRow a ps pe = some r) :
    0 ≤ r.periodDepreciation
      ∧ r.openingAccumulated + r.periodDepreciation ≤ a.cost - a.residual := by
  unfold depreciationScheduleRow at h
  cases hl : a.life with
  | none => rw [hl] at h; cases h
  | some L =>
    simp only [hl] at h
    by_cases hg : a.is_depreciable = true ∧ 0 < L ∧ a.method = some "straight-line"
    · rw [if_pos hg] at h
      by_cases hbase : a.cost - a.residual ≤ 0
      · rw [if_pos hbase] at h
        cases h
      · rw [if_neg hbase] at h
        simp only [Option.some.injEq] at h
        subst h
        have hop : min (a.cost - a.residual)
            (if a.date.dayIndex < ps.dayIndex then
              max 0 (((ps.dayIndex - a.date.dayIndex : Int) : ℚ) *
                ((a.cost - a.residual) / (L * 365)))
            else 0) ≤ a.cost - a.residual := min_le_left _ _
        constructor
        · show (0 : ℚ) ≤ _
          by_cases heff : (if a.date.dayIndex < ps.dayIndex then ps.dayIndex
              else a.date.dayIndex) ≤ pe.dayIndex
          · rw [if_pos heff]
            exact le_min (by linarith) (le_max_left _ _)
          · rw [if_neg heff]
        · show _ + _ ≤ a.cost - a.residual
          by_cases heff : (if a.date.dayIndex < ps.dayIndex then ps.dayIndex
              else a.date.dayIndex) ≤ pe.dayIndex
          · rw [if_pos heff]
            have := min_le_left
              ((a.cost - a.residual) - min (a.cost - a.residual)
                (if a.date.dayIndex < ps.dayIndex then
                  max 0 (((ps.dayIndex - a.date.dayIndex : Int) : ℚ) *
                    ((a.cost - a.residual) / (L * 365)))
                else 0))
              (max 0 (((pe.dayIndex - (if a.date.dayIndex < ps.dayIndex then ps.dayIndex
                  else a.date.dayIndex) + 1 : Int) : ℚ) * ((a.cost - a.residual) / (L * 365))))
            linarith
          · rw [if_neg heff]
            linarith
    · rw [if_neg hg] at h
      cases h

/-- C6: the computed depreciation is never negative and never pushes the
accumulated depreciation past the depreciable base, in both the monthly
scheme of the depreciation run and the daily scheme of the reporting
schedule; in particular with `accumulated = base - 100` the monthly amount
is at most 100. -/
theorem c6_depreciation_nonneg_capped (a : Asset) (d ps pe : SDate) :
    0 ≤ calculateDepreciationForAsset a d
    ∧ (a.accumulated_depreciation ≤ a.cost - a.residual →
        a.accumulated_depreciation + calculateDepreciationForAsset a d
          ≤ a.cost - a.residual)
    ∧ (∀ r, depreciationScheduleRow a ps pe = some r →
        0 ≤ r.periodDepreciation
          ∧ r.openingAccumulated + r.periodDepreciation ≤ a.cost - a.residual)
    ∧ (a.accumulated_depreciation = (a.cost - a.residual) - 100 →
        calculateDepreciationForAsset a d ≤ 100) := by
  refine ⟨calc_dep_nonneg a d,
    fun hba => by have := calc_dep_le_remaining a d hba; linarith,
    fun r hr => depRow_bounds a ps pe r hr,
    fun hacc => ?_⟩
  have hba : a.accumulated_depreciation ≤ a.cost - a.residual := by
    rw [hacc]; linarith
  have := calc_dep_le_remaining a d hba
  rw [hacc] at this
  linarith

/-- Witness for C6: the cap theorem applied to the nearly-fully-depreciated
asset (`accumulated = base - 100`) bounds the next amount by 100. -/
theorem c6_depreciation_nonneg_capped_witness :
    0 ≤ calculateDepreciationForAsset c5CexAsset c5CexDate
    ∧ calculateDepreciationForAsset c5CexAsset c5CexDate ≤ 100 := by
  have h := c6_depreciation_nonneg_capped c5CexAsset c5CexDate pStart pEnd
  exact ⟨h.1, h.2.2.2 (by norm_num [c5CexAsset])⟩

/-! ### The report calculation ignores stored balances -/

theorem chgOf_congr :
    ∀ {l₁ l₂ : List Account}, List.Forall₂ sameShape l₁ l₂ →
      ∀ e, chgOf l₁ e = chgOf l₂ e := by
  intro l₁ l₂ h
  induction h with
  | nil => intro e; rfl
  | cons hab htail ih =>
    intro e
    rename_i a b l₁' l₂'
    obtain ⟨hcode, hname, htype⟩ := hab
    unfold chgOf
    by_cases hc : a.code = e.account_code
    · rw [List.find?_cons_of_pos _ (by simp [hc]),
        List.find?_cons_of_pos _ (by simp [← hcode, hc])]
      simp only [htype]
    · rw [List.find?_cons_of_neg _ (by simp [hc]),
        List.find?_cons_of_neg _ (by simp [← hcode, hc])]
      exact ih e

theorem accChange_congr {l₁ l₂ : List Account}
    (h : List.Forall₂ sameShape l₁ l₂) (txs : List Transaction) (code : String) :
    accChange l₁ txs code = accChange l₂ txs code := by
  unfold accChange
  rw [List.map_congr_left (fun e _ => chgOf_congr h e)]

theorem filter_map_balance_congr :
    ∀ {l₁ l₂ : List Account}, List.Forall₂ sameShape l₁ l₂ →
      ∀ (T : AccountType) (F : String → ℚ),
        (l₁.filter (fun a => a.type == T)).map (fun a => { a with balance := F a.code })
          = (l₂.filter (fun a => a.type == T)).map (fun a => { a with balance := F a.code }) := by
  intro l₁ l₂ h
  induction h with
  | nil => intro T F; rfl
  | cons hab htail ih =>
    intro T F
    rename_i a b l₁' l₂'
    obtain ⟨hcode, hname, htype⟩ := hab
    rw [List.filter_cons, List.filter_cons]
    by_cases ht : a.type = T
    · rw [if_pos (by simp [ht]), if_pos (by simp [← htype, ht])]
      rw [List.map_cons, List.map_cons, ih T F]
      congr 1
      cases a
      cases b
      simp only [Account.mk.injEq] at hcode hname htype ⊢
      exact ⟨hcode, hname, htype, by rw [hcode]⟩
    · rw [if_neg (by simp [ht]), if_neg (by simp [← htype, ht])]
      exact ih T F

/-- C10: two states whose accounts agree on code, name and type — but may
disagree arbitrarily on the stored `balance` field (the `Saldo Awal` set at
account creation) — and that share the transaction history produce
identical report data for every period: the report rebuilds every figure
from the transaction history starting at zero. -/
theorem c10_reports_ignore_stored_balances (accounts₁ accounts₂ : List Account)
    (transactions : List Transaction) (ps pe : SDate)
    (hsh : List.Forall₂ sameShape accounts₁ accounts₂) :
    computeReport accounts₁ transactions ps pe
      = computeReport accounts₂ transactions ps pe := by
  unfold computeReport
  have hch : ∀ txs code, accChange accounts₁ txs code = accChange accounts₂ txs code :=
    fun txs code => accChange_congr hsh txs code
  simp only [hch]
  rw [filter_map_balance_congr hsh AccountType.Pendapatan
      (fun c => -(accChange accounts₂
        (transactions.filter (fun tx => ps.dayIndex ≤ tx.date.dayIndex
          ∧ tx.date.dayIndex ≤ pe.dayIndex)) c)),
    filter_map_balance_congr hsh AccountType.Beban
      (fun c => accChange accounts₂
        (transactions.filter (fun tx => ps.dayIndex ≤ tx.date.dayIndex
          ∧ tx.date.dayIndex ≤ pe.dayIndex)) c),
    filter_map_balance_congr hsh AccountType.Aset
      (fun c => accChange accounts₂
          (transactions.filter (fun tx => tx.date.dayIndex < ps.dayIndex)) c
        + accChange accounts₂
          (transactions.filter (fun tx => ps.dayIndex ≤ tx.date.dayIndex
            ∧ tx.date.dayIndex ≤ pe.dayIndex)) c),
    filter_map_balance_congr hsh AccountType.Liabilitas
      (fun c => accChange accounts₂
          (transactions.filter (fun tx => tx.date.dayIndex < ps.dayIndex)) c
        + accChange accounts₂
          (transactions.filter (fun tx => ps.dayIndex ≤ tx.date.dayIndex
            ∧ tx.date.dayIndex ≤ pe.dayIndex)) c)]
  rw [filter_map_balance_congr hsh AccountType.Modal
      (fun c => accChange accounts₂ (transactions.filter (fun tx => tx.date.dayIndex < ps.dayIndex)) c
        + accChange accounts₂ (transactions.filter (fun tx => ps.dayIndex ≤ tx.date.dayIndex ∧ tx.date.dayIndex ≤ pe.dayIndex)) c
        + (if c == "3200" then
            (((accounts₂.filter (fun a => a.type == AccountType.Pendapatan)).map (fun a => { a with balance := -(accChange accounts₂ (transactions.filter (fun tx => ps.dayIndex ≤ tx.date.dayIndex ∧ tx.date.dayIndex ≤ pe.dayIndex)) a.code) })).map Account.balance).sum
            - (((accounts₂.filter (fun a => a.type == AccountType.Beban)).map (fun a => { a with balance := accChange accounts₂ (transactions.filter (fun tx => ps.dayIndex ≤ tx.date.dayIndex ∧ tx.date.dayIndex ≤ pe.dayIndex)) a.code })).map Account.balance).sum
          else 0))]

/-- Witness for C10: the concrete three-account chart with zero balances
and the same chart with arbitrary balances yield the same report. -/
theorem c10_reports_ignore_stored_balances_witness :
    computeReport c4Accounts [c4Tx] pStart pEnd
      = computeReport c10Accounts [c4Tx] pStart pEnd :=
  c10_reports_ignore_stored_balances c4Accounts c10Accounts [c4Tx] pStart pEnd
    (List.Forall₂.cons ⟨rfl, rfl, rfl⟩
      (List.Forall₂.cons ⟨rfl, rfl, rfl⟩
        (List.Forall₂.cons ⟨rfl, rfl, rfl⟩ List.Forall₂.nil)))


end AplKeu
